import Mathlib

/-!
Verification development for the MorphMacro repository (AutoClicker.py and
Macros.py). Python floats are modelled as rationals, Python ints as integers,
JSON values as an inductive type, and the two worker loops as explicit step
functions over small state structures. Fallible operations return sum types;
nondeterministic inputs (clock readings, pointer positions, the jitter sample,
dialog results, stop-flag reads) are passed in as explicit parameters.
-/

namespace MorphSpec

/-- JSON values, as produced by Python's json module: null, booleans, numbers
(modelled as rationals), strings, arrays, and objects (ordered key/value
lists with unique keys, as Python dicts present them). -/
inductive Json where
  | null : Json
  | bool (b : Bool) : Json
  | num (q : ℚ) : Json
  | str (s : String) : Json
  | arr (elems : List Json) : Json
  | obj (fields : List (String × Json)) : Json

/-- `isinstance(a, dict)` on a JSON value. -/
def Json.isObjB : Json → Bool
  | .obj _ => true
  | _ => false

/-- Python dict key lookup over the ordered field list. -/
def lookupKv : List (String × Json) → String → Option Json
  | [], _ => none
  | (k, v) :: rest, key => if k = key then some v else lookupKv rest key

/-- `d.get(k, default)` on a JSON object; non-objects yield the default
(callers in the source only invoke `.get` on values already known to be
dicts). -/
def Json.getD (a : Json) (k : String) (d : Json) : Json :=
  match a with
  | .obj kvs => (lookupKv kvs k).getD d
  | _ => d

/-- Python truthiness of a JSON value (`bool(v)`). -/
def Json.truthy : Json → Bool
  | .null => false
  | .bool b => b
  | .num q => decide (q ≠ 0)
  | .str s => decide (s ≠ "")
  | .arr xs => !xs.isEmpty
  | .obj kvs => !kvs.isEmpty

/-- Python's `str()` applied to a JSON value, as far as the macro player needs
it: strings are returned verbatim; the remaining shapes are abbreviated
renderings (their exact Python spelling differs for containers and floats, but
none of them ever spells a mouse-button attribute name, which is the only use
site, `_button_from_name`). -/
def pyStr : Json → String
  | .str s => s
  | .null => "None"
  | .bool true => "True"
  | .bool false => "False"
  | .num q => toString q
  | .arr _ => "[...]"
  | .obj _ => "{...}"

/-- Truncation toward zero, as Python's `int()` does on a float. -/
def truncQ (q : ℚ) : ℤ :=
  if 0 ≤ q then ⌊q⌋ else -⌊-q⌋

/-- Python's `int()` applied to a JSON value as the macro player uses it
(numeric coordinates); non-numeric shapes, which would raise in Python, are
modelled as 0 and are outside every theorem below. -/
def pyInt : Json → ℤ
  | .num q => truncQ q
  | .bool true => 1
  | _ => 0

/-- Python's `float()` applied to a JSON value: numbers convert, bools convert
to 0/1, and the remaining shapes raise (string parsing, which succeeds in
Python for numeric literals only, is conservatively modelled as an error; no
theorem below depends on a string timestamp). -/
def pyFloat : Json → Except String ℚ
  | .num q => .ok q
  | .bool true => .ok 1
  | .bool false => .ok 0
  | _ => .error "TypeError: float() argument"

/-! ## AutoClicker.py : configuration -/

/-- `ClickConfig` dataclass of AutoClicker.py with its source defaults. -/
structure ClickConfig where
  interval_sec : ℚ := 1/10
  jitter_sec : ℚ := 0
  button : String := "left"
  double_click : Bool := false
  click_count : ℤ := 0
  duration_sec : ℚ := 0
  fixed_position : Bool := false
  x : ℤ := 0
  y : ℤ := 0
  failsafe_corner_stop : Bool := true
  always_on_top : Bool := false
  toggle_key : String := "<f8>"
  quit_key : String := "<esc>"
deriving Repr, DecidableEq

/-- `DEFAULT_CONFIG = ClickConfig()`. -/
def DEFAULT_CONFIG : ClickConfig := {}

/-- The recognized `ClickConfig` field names, in dataclass order. -/
def configFieldNames : List String :=
  ["interval_sec", "jitter_sec", "button", "double_click", "click_count",
   "duration_sec", "fixed_position", "x", "y", "failsafe_corner_stop",
   "always_on_top", "toggle_key", "quit_key"]

/-- `dataclasses.asdict` on a `ClickConfig`: the ordered field dict. -/
def asdict (cfg : ClickConfig) : List (String × Json) :=
  [("interval_sec", .num cfg.interval_sec),
   ("jitter_sec", .num cfg.jitter_sec),
   ("button", .str cfg.button),
   ("double_click", .bool cfg.double_click),
   ("click_count", .num (cfg.click_count : ℚ)),
   ("duration_sec", .num cfg.duration_sec),
   ("fixed_position", .bool cfg.fixed_position),
   ("x", .num (cfg.x : ℚ)),
   ("y", .num (cfg.y : ℚ)),
   ("failsafe_corner_stop", .bool cfg.failsafe_corner_stop),
   ("always_on_top", .bool cfg.always_on_top),
   ("toggle_key", .str cfg.toggle_key),
   ("quit_key", .str cfg.quit_key)]

/-- `data[k] = v` on a Python dict, but only executed when `k in data`
already holds — the guarded assignment inside `merge_config`. -/
def dictSetIfPresent (d : List (String × Json)) (k : String) (v : Json) :
    List (String × Json) :=
  if d.any (fun p => p.1 = k) then
    d.map (fun p => if p.1 = k then (k, v) else p)
  else d

/-- `merge_config(base, overrides)` of AutoClicker.py, at the dict level:
start from `asdict(base)` and assign each override value only when its key is
already a field of the dict; unknown keys fall through silently. The source
then rebuilds `ClickConfig(**data)`, which is determined by this dict. -/
def merge_config_dict (base : List (String × Json))
    (overrides : List (String × Json)) : List (String × Json) :=
  overrides.foldl (fun d kv => dictSetIfPresent d kv.1 kv.2) base

/-! ## AutoClicker.py : click driver -/

/-- `clamp_nonnegative(x)` of AutoClicker.py. -/
def clamp_nonnegative (x : ℚ) : ℚ :=
  if x > 0 then x else 0

/-- The per-cycle delay computed by `AutoClicker._sleep_interval`: when the
configured jitter is truthy and positive the delay is `base + sample` where
`sample` is the value drawn by `random.uniform(-jitter, jitter)`, otherwise
the bare base interval; the result is clamped to a non-negative floor before
being slept. -/
def sleep_interval_delay (interval_sec jitter_sec sample : ℚ) : ℚ :=
  clamp_nonnegative
    (if jitter_sec ≠ 0 ∧ jitter_sec > 0 then interval_sec + sample
     else interval_sec)

/-- `AutoClicker._failsafe_triggered`: `pos = none` models an exception while
reading `mouse_ctl.position` (caught and treated as no trigger). -/
def failsafe_triggered (cfg : ClickConfig) (pos : Option (ℤ × ℤ)) : Bool :=
  if cfg.failsafe_corner_stop = false then false
  else
    match pos with
    | none => false
    | some (x, y) => decide (x ≤ 0) && decide (y ≤ 0)

/-- `AutoClicker._should_stop_for_limits`, with the wall clock passed in:
`startedAt` is `_started_at`, `now` is `time.time()`, `clicksDone` is
`_clicks_done`. Python float truthiness makes the duration branch fire only
when `duration_sec` is nonzero; likewise for `click_count`. -/
def should_stop_for_limits (cfg : ClickConfig) (startedAt : Option ℚ)
    (now : ℚ) (clicksDone : ℤ) : Bool :=
  if cfg.duration_sec ≠ 0 ∧
      startedAt.elim false (fun t0 => decide (now - t0 ≥ cfg.duration_sec))
        = true then
    true
  else if cfg.click_count ≠ 0 ∧ clicksDone ≥ cfg.click_count then true
  else false

/-- The mutable state of an `AutoClicker` instance: the `_clicking` event,
the `_stop_all` event, `_started_at` and `_clicks_done`. -/
structure ClickerState where
  clicking : Bool
  stopAll : Bool
  startedAt : Option ℚ
  clicksDone : ℤ
deriving Repr, DecidableEq

/-- The state set up by `AutoClicker.__init__`. -/
def initialClickerState : ClickerState :=
  { clicking := false, stopAll := false, startedAt := none, clicksDone := 0 }

/-- `AutoClicker.toggle()` at wall-clock time `now`: pausing clears the
clicking flag; starting resets `_started_at` and `_clicks_done` and sets it. -/
def clickerToggle (now : ℚ) (s : ClickerState) : ClickerState :=
  if s.clicking then { s with clicking := false }
  else { s with startedAt := some now, clicksDone := 0, clicking := true }

/-- `AutoClicker.stop()`. -/
def clickerStop (s : ClickerState) : ClickerState :=
  { s with stopAll := true, clicking := false }

/-- One iteration of the `AutoClicker._run` loop body, given this cycle's
wall-clock reading and pointer position (`none` = position read failed).
A stopped worker and an idle worker leave the state unchanged (the idle
branch only sleeps 50 ms); otherwise the failsafe check, then the limit
check, may pause; otherwise `_do_click` runs and increments the counter. -/
def runStep (cfg : ClickConfig) (now : ℚ) (pos : Option (ℤ × ℤ))
    (s : ClickerState) : ClickerState :=
  if s.stopAll then s
  else if s.clicking = false then s
  else if failsafe_triggered cfg pos then { s with clicking := false }
  else if should_stop_for_limits cfg s.startedAt now s.clicksDone then
    { s with clicking := false }
  else { s with clicksDone := s.clicksDone + 1 }

/-- A sequence of run-loop iterations, each with its own clock and pointer
readings. -/
def runTicks (cfg : ClickConfig) (envs : List (ℚ × Option (ℤ × ℤ)))
    (s : ClickerState) : ClickerState :=
  envs.foldl (fun st e => runStep cfg e.1 e.2 st) s

/-- An externally observable event hitting the clicker: a run-loop iteration,
a user toggle, or a stop. -/
inductive ClickerEvent where
  | tick (now : ℚ) (pos : Option (ℤ × ℤ)) : ClickerEvent
  | toggleEv (now : ℚ) : ClickerEvent
  | stopEv : ClickerEvent
deriving Repr, DecidableEq

/-- Apply one event to the clicker state. -/
def applyEvent (cfg : ClickConfig) (s : ClickerState) :
    ClickerEvent → ClickerState
  | .tick now pos => runStep cfg now pos s
  | .toggleEv now => clickerToggle now s
  | .stopEv => clickerStop s

/-- Run an arbitrary interleaving of loop iterations, toggles and stops. -/
def runEvents (cfg : ClickConfig) (s : ClickerState)
    (evs : List ClickerEvent) : ClickerState :=
  evs.foldl (applyEvent cfg) s

/-! ## AutoClicker.py : GUI apply path and CLI startup path -/

/-- Result of `AutoClickerGUI._read_config`: either a validation failure
(the method shows an error box and returns `None`, so `on_apply` returns
without touching the running clicker) or a built `ClickConfig`. -/
inductive ReadConfigResult where
  | invalid (msg : String) : ReadConfigResult
  | built (cfg : ClickConfig) : ReadConfigResult
deriving Repr, DecidableEq

/-- Whether `_read_config` produced a config (its caller proceeds only then). -/
def ReadConfigResult.isBuilt : ReadConfigResult → Bool
  | .built _ => true
  | .invalid _ => false

/-- `AutoClickerGUI._read_config`, with the entry-field parses passed in:
`none` for a numeric field models the `ValueError` branch of
`float()`/`int()`; `validToggle`/`validQuit` model `is_valid_hotkey` (an
external pynput parse). The checks run in source order: numeric parse,
non-negativity, button name, hotkey emptiness after `.strip()`, hotkey
equality, hotkey validity; only then is the `ClickConfig` constructed. -/
def read_config (intervalP jitterP durationP : Option ℚ)
    (countP xP yP : Option ℤ)
    (button : String) (dbl fixed failsafe topmost : Bool)
    (toggleRaw quitRaw : String) (validToggle validQuit : Bool) :
    ReadConfigResult :=
  match intervalP, jitterP, durationP, countP, xP, yP with
  | some interval, some jitter, some duration, some count, some x, some y =>
    if interval < 0 ∨ jitter < 0 ∨ count < 0 ∨ duration < 0 then
      .invalid "Interval, jitter, count, and duration must be non-negative."
    else if button.trim.toLower ≠ "left" ∧ button.trim.toLower ≠ "right" ∧
        button.trim.toLower ≠ "middle" then
      .invalid "Button must be left, right, or middle."
    else if toggleRaw.trim = "" ∨ quitRaw.trim = "" then
      .invalid "Toggle and quit hotkeys are required."
    else if toggleRaw.trim = quitRaw.trim then
      .invalid "Toggle and quit hotkeys must be different."
    else if validToggle = false ∨ validQuit = false then
      .invalid "Use pynput format such as <f8>, <esc>, or <ctrl>+<alt>+q."
    else
      .built
        { interval_sec := interval, jitter_sec := jitter,
          button := button.trim.toLower, double_click := dbl,
          click_count := count, duration_sec := duration,
          fixed_position := fixed, x := x, y := y,
          failsafe_corner_stop := failsafe, always_on_top := topmost,
          toggle_key := toggleRaw.trim, quit_key := quitRaw.trim }
  | _, _, _, _, _, _ =>
    .invalid "Numeric fields must contain valid numbers."

/-- The two callbacks `run_cli` binds to hotkeys. -/
inductive CliAction where
  | toggleAction : CliAction
  | quitAction : CliAction
deriving Repr, DecidableEq

/-- Insertion into a Python dict literal: a repeated key overwrites the
earlier value in place. -/
def dictInsert (m : List (String × CliAction)) (k : String) (v : CliAction) :
    List (String × CliAction) :=
  if m.any (fun p => p.1 = k) then
    m.map (fun p => if p.1 = k then (k, v) else p)
  else m ++ [(k, v)]

/-- The hotkey table `run_cli` hands to `GlobalHotKeys`:
`{cfg.toggle_key: on_toggle, cfg.quit_key: on_quit}`. `run_cli` (AutoClicker.py
lines 250-286) performs no validation of the two hotkey strings — this dict
construction is its only configuration-dependent startup step. -/
def run_cli_hotkeys (cfg : ClickConfig) : List (String × CliAction) :=
  dictInsert (dictInsert [] cfg.toggle_key .toggleAction)
    cfg.quit_key .quitAction

/-! ## Macros.py : save and load -/

/-- The payload `save_macro` serializes:
`{"version": 1, "actions": self.actions}`. -/
def save_payload (actions : List Json) : Json :=
  .obj [("version", .num 1), ("actions", .arr actions)]

/-- The parsing half of `MacroApp.load_macro`, applied to the decoded JSON
document: a dict is indexed at `"actions"` (a missing key raises `KeyError`,
caught by the surrounding handler), any other value is taken as the action
array itself; a non-list raises `ValueError`; finally non-dict elements are
filtered out. -/
def load_parse (data : Json) : Except String (List Json) :=
  let requireList : Json → Except String (List Json) := fun j =>
    match j with
    | .arr xs => .ok (xs.filter Json.isObjB)
    | _ => .error "Invalid macro format: actions must be a list."
  match data with
  | .obj kvs =>
    match lookupKv kvs "actions" with
    | none => .error "KeyError: actions"
    | some v => requireList v
  | j => requireList j

/-- Outcome of a save/load button press, as surfaced to the user. `reported`
is a messagebox (`showerror`/`showinfo`); `raised` is an exception that
escapes the handler (no `try` block on that path in the source). -/
inductive IoOutcome where
  | noActions : IoOutcome
  | cancelled : IoOutcome
  | completed : IoOutcome
  | reported (msg : String) : IoOutcome
  | raised (msg : String) : IoOutcome
deriving Repr, DecidableEq

/-- `MacroApp.save_macro`: refuses an empty list with an info box, returns on
a cancelled dialog, then writes the payload with `Path(path).write_text` —
which is NOT wrapped in try/except, so a write failure (`writeResult =
.error e`) propagates out of the handler. The in-memory action list is never
assigned; the returned list is always the input list. -/
def save_op (actions : List Json) (pathChosen : Option String)
    (writeResult : Except String Unit) : List Json × IoOutcome :=
  if actions.isEmpty then (actions, .noActions)
  else
    match pathChosen with
    | none => (actions, .cancelled)
    | some _ =>
      match writeResult with
      | .error e => (actions, .raised e)
      | .ok _ => (actions, .completed)

/-- `MacroApp.load_macro`: returns on a cancelled dialog; a read/decode
failure (`readResult = .error e`) or a parse failure inside the `try` block
is caught and reported via `showerror`, leaving `self.actions` untouched;
only on success is the action list replaced wholesale. -/
def load_op (actions : List Json) (pathChosen : Option String)
    (readResult : Except String Json) : List Json × IoOutcome :=
  match pathChosen with
  | none => (actions, .cancelled)
  | some _ =>
    match readResult with
    | .error e => (actions, .reported ("Could not load macro: " ++ e))
    | .ok data =>
      match load_parse data with
      | .error e => (actions, .reported ("Could not load macro: " ++ e))
      | .ok newActions => (newActions, .completed)

/-! ## Macros.py : playback -/

/-- The pynput mouse buttons the player can press (the portable members of
the external `mouse.Button` enum; `BUTTON_MAP` in AutoClicker.py names the
same three). -/
inductive MouseButton where
  | left : MouseButton
  | right : MouseButton
  | middle : MouseButton
deriving Repr, DecidableEq

/-- `MacroApp._button_from_name`: `getattr(mouse.Button, name)` when
`hasattr(mouse.Button, name)`, else `mouse.Button.left`. -/
def button_from_name (name : String) : MouseButton :=
  if name = "left" then .left
  else if name = "right" then .right
  else if name = "middle" then .middle
  else .left

/-- A replayed keyboard key, as `_deserialize_key` rebuilds it. -/
inductive PKey where
  | charKey (c : String) : PKey
  | vkKey (v : ℤ) : PKey
  | specialKey (s : String) : PKey
deriving Repr, DecidableEq

/-- The named members of the external `keyboard.Key` enum tested by
`hasattr(keyboard.Key, value)` in `_deserialize_key` (the portable pynput
set). -/
def keyboardKeyNames : List String :=
  ["alt", "alt_l", "alt_r", "alt_gr", "backspace", "caps_lock", "cmd",
   "cmd_l", "cmd_r", "ctrl", "ctrl_l", "ctrl_r", "delete", "down", "end",
   "enter", "esc", "f1", "f2", "f3", "f4", "f5", "f6", "f7", "f8", "f9",
   "f10", "f11", "f12", "home", "left", "page_down", "page_up", "right",
   "shift", "shift_l", "shift_r", "space", "tab", "up", "insert", "menu",
   "num_lock", "pause", "print_screen", "scroll_lock"]

/-- `MacroApp._deserialize_key`: a `"char"` payload needs a non-empty string
value, a `"vk"` payload an int (Python bools pass `isinstance(value, int)`),
a `"special"` payload a string naming a `keyboard.Key` member; anything else
yields `None`. -/
def deserialize_key (a : Json) : Option PKey :=
  match a.getD "key_type" .null, a.getD "value" .null with
  | .str "char", .str v => if v ≠ "" then some (.charKey v) else none
  | .str "vk", .num q => if q.den = 1 then some (.vkKey q.num) else none
  | .str "vk", .bool b => some (.vkKey (if b then 1 else 0))
  | .str "special", .str v =>
    if v ∈ keyboardKeyNames then some (.specialKey v) else none
  | _, _ => none

/-- An input-simulation effect issued during playback. -/
inductive Effect where
  | setPos (x y : ℤ) : Effect
  | press (b : MouseButton) : Effect
  | release (b : MouseButton) : Effect
  | scroll (dx dy : ℤ) : Effect
  | keyPress (k : PKey) : Effect
  | keyRelease (k : PKey) : Effect
deriving Repr, DecidableEq

/-- `MacroApp._execute_action` as the list of effects it issues for one
action: dispatch on the `"kind"` field; an unknown or non-string kind falls
through every comparison and does nothing; a `key` action whose payload does
not deserialize is skipped. -/
def execute_action (a : Json) : List Effect :=
  match a.getD "kind" .null with
  | .str k =>
    if k = "mouse_move" then
      [.setPos (pyInt (a.getD "x" (.num 0))) (pyInt (a.getD "y" (.num 0)))]
    else if k = "mouse_click" then
      let btn := button_from_name (pyStr (a.getD "button" (.str "left")))
      if (a.getD "pressed" .null).truthy then [.press btn]
      else [.release btn]
    else if k = "mouse_scroll" then
      [.scroll (pyInt (a.getD "dx" (.num 0))) (pyInt (a.getD "dy" (.num 0)))]
    else if k = "key" then
      match deserialize_key a with
      | none => []
      | some kk =>
        match a.getD "phase" .null with
        | .str "press" => [.keyPress kk]
        | _ => [.keyRelease kk]
    else []
  | _ => []

/-- How one `_play_worker` run ended, as enqueued for the UI: the
`playback_done`, `playback_stopped` and `playback_error` events. -/
inductive PlayOutcome where
  | done : PlayOutcome
  | stopped : PlayOutcome
  | errored (msg : String) : PlayOutcome
deriving Repr, DecidableEq

/-- The loop body of `MacroApp._play_worker`. `stopF n` is the value the
`_playback_stop` event reads at its `n`-th consultation during this run
(`is_set` before the delay, `wait(delay)` when the delay is nonzero, `is_set`
again before executing). Returns the actions actually executed, in order,
and the reported outcome. A non-dict action raises at `action.get` and is
caught by the worker's handler. -/
def playAux (stopF : ℕ → Bool) : List Json → ℕ → ℚ → List Json × PlayOutcome
  | [], _, _ => ([], .done)
  | a :: rest, n, prevT =>
    if stopF n then ([], .stopped)
    else if a.isObjB = false then
      ([], .errored "AttributeError: get")
    else
      match pyFloat (a.getD "t" (.num 0)) with
      | .error e => ([], .errored e)
      | .ok t =>
        let delay := max 0 (t - prevT)
        if delay ≠ 0 ∧ stopF (n + 1) then ([], .stopped)
        else
          let n2 := if delay ≠ 0 then n + 2 else n + 1
          if stopF n2 then ([], .stopped)
          else
            let r := playAux stopF rest (n2 + 1) t
            (a :: r.1, r.2)

/-- `MacroApp._play_worker` over a snapshot of the action list, starting with
`prev_t = 0.0` and the stop event freshly cleared. -/
def play_worker (stopF : ℕ → Bool) (actions : List Json) :
    List Json × PlayOutcome :=
  playAux stopF actions 0 0

/-- One action's block of `_playback_stop` consultations in `_play_worker`:
`is_set` before the delay, the `wait(delay)` read when the delay is nonzero,
and `is_set` again before executing — 3 consultations for an action with a
nonzero delay, 2 otherwise — together with the action's timestamp (the next
`prev_t`); `none` when processing the action aborts playback right after the
first consultation (non-dict action or bad timestamp). -/
def actionChecks (a : Json) (p : ℚ) : Option (ℕ × ℚ) :=
  if a.isObjB = false then none
  else
    match pyFloat (a.getD "t" (Json.num 0)) with
    | .error _ => none
    | .ok t => some (if max 0 (t - p) ≠ 0 then 3 else 2, t)

/-- Total number of stop-signal consultations a complete, uncancelled
playback run makes over an action list. -/
def totalChecks : List Json → ℚ → ℕ
  | [], _ => 0
  | a :: rest, p =>
    match actionChecks a p with
    | none => 1
    | some (c, t) => c + totalChecks rest t

/-- The actions executed by a playback run whose stop signal first reads true
at its `k`-th consultation, counting from `n`: an action executes exactly
when its whole check block — before-delay, mid-sleep wait, before-execute —
lies strictly below `k`; the action being processed when the signal arrives,
and every action after it, is not executed. -/
def executedBefore (k : ℕ) : List Json → ℕ → ℚ → List Json
  | [], _, _ => []
  | a :: rest, n, p =>
    match actionChecks a p with
    | none => []
    | some (c, t) =>
      if n + c ≤ k then a :: executedBefore k rest (n + c) t else []

/-- A concrete configuration exercising the click-count limit: stop after two
clicks, no duration limit, failsafe disabled. -/
def cfgTwo : ClickConfig :=
  { click_count := 2, duration_sec := 0, failsafe_corner_stop := false }

/-- A concrete well-formed recorded action. -/
def sampleAction : Json :=
  Json.obj [("kind", Json.str "key"), ("t", Json.num 0)]

/-- A second concrete well-formed recorded action, one second later, so its
replay has a nonzero delay and therefore a mid-sleep stop consultation. -/
def sampleAction2 : Json :=
  Json.obj [("kind", Json.str "key"), ("t", Json.num 1)]

/-! ## Helper lemmas -/

lemma dictSetIfPresent_keys (d : List (String × Json)) (k : String) (v : Json) :
    (dictSetIfPresent d k v).map Prod.fst = d.map Prod.fst := by
  unfold dictSetIfPresent
  split
  · rw [List.map_map]
    refine List.map_congr_left fun p _ => ?_
    simp only [Function.comp_apply]
    split_ifs with h
    · simp [h]
    · rfl
  · rfl

lemma merge_config_dict_keys (ovs : List (String × Json)) :
    ∀ base, (merge_config_dict base ovs).map Prod.fst = base.map Prod.fst := by
  induction ovs with
  | nil => intro _; rfl
  | cons kv rest ih =>
    intro base
    show (merge_config_dict (dictSetIfPresent base kv.1 kv.2) rest).map Prod.fst
        = base.map Prod.fst
    rw [ih, dictSetIfPresent_keys]

lemma dictSetIfPresent_of_not_mem (d : List (String × Json)) (k : String)
    (v : Json) (h : ∀ p ∈ d, p.1 ≠ k) : dictSetIfPresent d k v = d := by
  have hany : d.any (fun p => p.1 = k) = false := by
    rw [List.any_eq_false]
    intro p hp
    simpa using h p hp
  simp [dictSetIfPresent, hany]

lemma merge_unrecognized (cfg : ClickConfig) :
    ∀ ovs, (∀ kv ∈ ovs, kv.1 ∉ configFieldNames) →
      merge_config_dict (asdict cfg) ovs = asdict cfg := by
  intro ovs
  induction ovs with
  | nil => intro _; rfl
  | cons kv rest ih =>
    intro h
    show merge_config_dict (dictSetIfPresent (asdict cfg) kv.1 kv.2) rest
        = asdict cfg
    rw [dictSetIfPresent_of_not_mem]
    · exact ih fun p hp => h p (List.mem_cons_of_mem kv hp)
    · intro p hp heq
      apply h kv (List.mem_cons_self kv rest)
      have hk : (asdict cfg).map Prod.fst = configFieldNames := rfl
      rw [← heq, ← hk]
      exact List.mem_map_of_mem Prod.fst hp

lemma playAux_executed (stopF : ℕ → Bool) :
    ∀ (l : List Json) (n : ℕ) (p : ℚ),
      ∃ rest, (playAux stopF l n p).1 ++ rest = l := by
  intro l
  induction l with
  | nil => exact fun n p => ⟨[], rfl⟩
  | cons a tl ih =>
    intro n p
    by_cases hs : stopF n
    · exact ⟨a :: tl, by simp [playAux, hs]⟩
    · by_cases ho : a.isObjB = false
      · exact ⟨a :: tl, by simp [playAux, hs, ho]⟩
      · rcases hpf : pyFloat (a.getD "t" (Json.num 0)) with e | t
        · exact ⟨a :: tl, by simp [playAux, hs, ho, hpf]⟩
        · by_cases hd : p < t
          · by_cases hw2 : stopF (n + 1)
            · exact ⟨a :: tl, by simp [playAux, hs, ho, hpf, hd, hw2]⟩
            · by_cases h2 : stopF (n + 2)
              · exact ⟨a :: tl, by simp [playAux, hs, ho, hpf, hd, hw2, h2]⟩
              · obtain ⟨rest, hrest⟩ := ih (n + 2 + 1) t
                exact ⟨rest, by simp [playAux, hs, ho, hpf, hd, hw2, h2, hrest]⟩
          · by_cases h2 : stopF (n + 1)
            · exact ⟨a :: tl, by simp [playAux, hs, ho, hpf, hd, h2]⟩
            · obtain ⟨rest, hrest⟩ := ih (n + 1 + 1) t
              exact ⟨rest, by simp [playAux, hs, ho, hpf, hd, h2, hrest]⟩

lemma playAux_stopped_ne (stopF : ℕ → Bool) :
    ∀ (l : List Json) (n : ℕ) (p : ℚ),
      (playAux stopF l n p).2 = PlayOutcome.stopped →
        (playAux stopF l n p).1 ≠ l := by
  intro l
  induction l with
  | nil => intro n p h; simp [playAux] at h
  | cons a tl ih =>
    intro n p h
    by_cases hs : stopF n
    · simp [playAux, hs]
    · by_cases ho : a.isObjB = false
      · simp [playAux, hs, ho] at h
      · rcases hpf : pyFloat (a.getD "t" (Json.num 0)) with e | t
        · simp [playAux, hs, ho, hpf] at h
        · by_cases hd : p < t
          · by_cases hw2 : stopF (n + 1)
            · simp [playAux, hs, ho, hpf, hd, hw2]
            · by_cases h2 : stopF (n + 2)
              · simp [playAux, hs, ho, hpf, hd, hw2, h2]
              · have h' : (playAux stopF tl (n + 2 + 1) t).2
                    = PlayOutcome.stopped := by
                  simpa [playAux, hs, ho, hpf, hd, hw2, h2] using h
                simp [playAux, hs, ho, hpf, hd, hw2, h2, ih (n + 2 + 1) t h']
          · by_cases h2 : stopF (n + 1)
            · simp [playAux, hs, ho, hpf, hd, h2]
            · have h' : (playAux stopF tl (n + 1 + 1) t).2
                  = PlayOutcome.stopped := by
                simpa [playAux, hs, ho, hpf, hd, h2] using h
              simp [playAux, hs, ho, hpf, hd, h2, ih (n + 1 + 1) t h']

lemma playAux_cut (k : ℕ) :
    ∀ (l : List Json) (n : ℕ) (p : ℚ), n ≤ k →
      (∀ a ∈ l, a.isObjB = true ∧
        ∃ q, a.getD "t" (Json.num 0) = Json.num q) →
      playAux (fun m => decide (k ≤ m)) l n p
        = (executedBefore k l n p,
           if k < n + totalChecks l p then PlayOutcome.stopped
           else PlayOutcome.done) := by
  intro l
  induction l with
  | nil =>
    intro n p hle _
    simp only [playAux, executedBefore, totalChecks]
    rw [if_neg (by omega)]
  | cons a tl ih =>
    intro n p hle hw
    obtain ⟨hobj, q, hq⟩ := hw a (List.mem_cons_self a tl)
    have htl := fun b hb => hw b (List.mem_cons_of_mem a hb)
    by_cases hd : p < q
    · have hac : actionChecks a p = some (3, q) := by
        simp [actionChecks, hobj, hq, pyFloat, hd]
      have htot : totalChecks (a :: tl) p = 3 + totalChecks tl q := by
        simp only [totalChecks, hac]
      have hexe : executedBefore k (a :: tl) n p
          = if n + 3 ≤ k then a :: executedBefore k tl (n + 3) q else [] := by
        simp only [executedBefore, hac]
      by_cases h0 : k ≤ n
      · rw [hexe, if_neg (by omega), htot, if_pos (by omega)]
        simp [playAux, h0]
      · have hs : ¬ k ≤ n := h0
        by_cases h1 : k ≤ n + 1
        · rw [hexe, if_neg (by omega), htot, if_pos (by omega)]
          simp [playAux, hs, hobj, hq, pyFloat, hd, h1]
        · by_cases h2 : k ≤ n + 2
          · rw [hexe, if_neg (by omega), htot, if_pos (by omega)]
            simp [playAux, hs, hobj, hq, pyFloat, hd, h1, h2]
          · have hrec := ih (n + 2 + 1) q (by omega) htl
            have hL : playAux (fun m => decide (k ≤ m)) (a :: tl) n p
                = (a :: executedBefore k tl (n + 2 + 1) q,
                   if k < n + 2 + 1 + totalChecks tl q then
                     PlayOutcome.stopped
                   else PlayOutcome.done) := by
              simp [playAux, hs, hobj, hq, pyFloat, hd, h1, h2, hrec]
            have h3 : n + 2 + 1 = n + 3 := by omega
            rw [h3] at hL
            have hcond : (k < n + 3 + totalChecks tl q)
                ↔ (k < n + (3 + totalChecks tl q)) := by omega
            simp only [hcond] at hL
            rw [hexe, if_pos (show n + 3 ≤ k by omega), htot, hL]
    · have hac : actionChecks a p = some (2, q) := by
        simp [actionChecks, hobj, hq, pyFloat, hd]
      have htot : totalChecks (a :: tl) p = 2 + totalChecks tl q := by
        simp only [totalChecks, hac]
      have hexe : executedBefore k (a :: tl) n p
          = if n + 2 ≤ k then a :: executedBefore k tl (n + 2) q else [] := by
        simp only [executedBefore, hac]
      by_cases h0 : k ≤ n
      · rw [hexe, if_neg (by omega), htot, if_pos (by omega)]
        simp [playAux, h0]
      · have hs : ¬ k ≤ n := h0
        by_cases h1 : k ≤ n + 1
        · rw [hexe, if_neg (by omega), htot, if_pos (by omega)]
          simp [playAux, hs, hobj, hq, pyFloat, hd, h1]
        · have hrec := ih (n + 1 + 1) q (by omega) htl
          have hL : playAux (fun m => decide (k ≤ m)) (a :: tl) n p
              = (a :: executedBefore k tl (n + 1 + 1) q,
                 if k < n + 1 + 1 + totalChecks tl q then
                   PlayOutcome.stopped
                 else PlayOutcome.done) := by
            simp [playAux, hs, hobj, hq, pyFloat, hd, h1, hrec]
          have h3 : n + 1 + 1 = n + 2 := by omega
          rw [h3] at hL
          have hcond : (k < n + 2 + totalChecks tl q)
              ↔ (k < n + (2 + totalChecks tl q)) := by omega
          simp only [hcond] at hL
          rw [hexe, if_pos (show n + 2 ≤ k by omega), htot, hL]

lemma failsafe_off (cfg : ClickConfig) (pos : Option (ℤ × ℤ))
    (h : cfg.failsafe_corner_stop = false) :
    failsafe_triggered cfg pos = false := by
  simp [failsafe_triggered, h]

lemma should_stop_of_count (cfg : ClickConfig) (startedAt : Option ℚ)
    (now : ℚ) (clicksDone : ℤ) (h1 : cfg.click_count ≠ 0)
    (h2 : clicksDone ≥ cfg.click_count) :
    should_stop_for_limits cfg startedAt now clicksDone = true := by
  unfold should_stop_for_limits
  split_ifs with hA hB
  · rfl
  · rfl
  · exact absurd ⟨h1, h2⟩ hB

lemma should_stop_count_false (cfg : ClickConfig) (startedAt : Option ℚ)
    (now : ℚ) (clicksDone : ℤ) (hdur : cfg.duration_sec = 0)
    (h2 : clicksDone < cfg.click_count) :
    should_stop_for_limits cfg startedAt now clicksDone = false := by
  unfold should_stop_for_limits
  split_ifs with hA hB
  · exact absurd rfl (hdur ▸ hA.1)
  · exact absurd hB.2 (not_le.mpr h2)
  · rfl

lemma runStep_idle (cfg : ClickConfig) (now : ℚ) (pos : Option (ℤ × ℤ))
    (s : ClickerState) (h1 : s.clicking = false) (h2 : s.stopAll = false) :
    runStep cfg now pos s = s := by
  simp [runStep, h1, h2]

lemma runTicks_idle (cfg : ClickConfig) (envs : List (ℚ × Option (ℤ × ℤ))) :
    ∀ s : ClickerState, s.clicking = false → s.stopAll = false →
      runTicks cfg envs s = s := by
  induction envs with
  | nil => intro s _ _; rfl
  | cons e tl ih =>
    intro s h1 h2
    show runTicks cfg tl (runStep cfg e.1 e.2 s) = s
    rw [runStep_idle cfg e.1 e.2 s h1 h2]
    exact ih s h1 h2

lemma runTicks_counts (cfg : ClickConfig) (n : ℕ) (hn : 0 < n)
    (hcc : cfg.click_count = (n : ℤ)) (hdur : cfg.duration_sec = 0)
    (hfs : cfg.failsafe_corner_stop = false) :
    ∀ (envs : List (ℚ × Option (ℤ × ℤ))) (s : ClickerState) (c : ℕ),
      s.clicking = true → s.stopAll = false → s.clicksDone = (c : ℤ) →
      c ≤ n →
      (runTicks cfg envs s).clicksDone = ((min n (c + envs.length) : ℕ) : ℤ) ∧
      ((runTicks cfg envs s).clicking = true ↔ c + envs.length ≤ n) := by
  intro envs
  induction envs with
  | nil =>
    intro s c h1 _ h3 h4
    refine ⟨?_, ?_⟩
    · simp only [runTicks, List.foldl_nil, List.length_nil, Nat.add_zero]
      rw [h3, Nat.min_eq_right h4]
    · simp only [runTicks, List.foldl_nil, List.length_nil, Nat.add_zero]
      exact ⟨fun _ => h4, fun _ => h1⟩
  | cons e tl ih =>
    intro s c h1 h2 h3 h4
    rcases Nat.lt_or_ge c n with hlt | hge
    · -- below the limit: this cycle clicks
      have hss : should_stop_for_limits cfg s.startedAt e.1 s.clicksDone
          = false := by
        apply should_stop_count_false cfg _ _ _ hdur
        rw [h3, hcc]
        exact_mod_cast hlt
      have hstep : runStep cfg e.1 e.2 s
          = { s with clicksDone := s.clicksDone + 1 } := by
        simp [runStep, h1, h2, failsafe_off cfg e.2 hfs, hss]
      have hrw : runTicks cfg (e :: tl) s
          = runTicks cfg tl { s with clicksDone := s.clicksDone + 1 } := by
        show runTicks cfg tl (runStep cfg e.1 e.2 s) = _
        rw [hstep]
      obtain ⟨ha, hb⟩ := ih { s with clicksDone := s.clicksDone + 1 } (c + 1)
        h1 h2 (by simp [h3]) (by omega)
      refine ⟨?_, ?_⟩
      · rw [hrw, ha]
        have : min n (c + 1 + tl.length) = min n (c + (e :: tl).length) := by
          simp only [List.length_cons]
          omega
        exact_mod_cast congrArg (fun m : ℕ => (m : ℤ)) this
      · rw [hrw, hb]
        simp only [List.length_cons]
        omega
    · -- at the limit already: this cycle pauses, the rest are idle
      have hc : c = n := le_antisymm h4 hge
      have hss : should_stop_for_limits cfg s.startedAt e.1 s.clicksDone
          = true := by
        apply should_stop_of_count
        · rw [hcc]
          exact_mod_cast Nat.pos_iff_ne_zero.mp hn
        · rw [h3, hcc]
          exact_mod_cast hge
      have hstep : runStep cfg e.1 e.2 s = { s with clicking := false } := by
        simp [runStep, h1, h2, failsafe_off cfg e.2 hfs, hss]
      have hrw : runTicks cfg (e :: tl) s = { s with clicking := false } := by
        show runTicks cfg tl (runStep cfg e.1 e.2 s) = _
        rw [hstep]
        exact runTicks_idle cfg tl _ rfl h2
      refine ⟨?_, ?_⟩
      · rw [hrw]
        show s.clicksDone = _
        rw [h3, hc]
        have : min n (n + (e :: tl).length) = n := by omega
        rw [this]
      · rw [hrw]
        show (false = true ↔ _)
        simp only [List.length_cons]
        constructor
        · intro hfalse
          exact absurd hfalse (by simp)
        · intro harith
          omega

lemma clicksDone_le_inv (cfg : ClickConfig) (n : ℕ) (hn : 0 < n)
    (hcc : cfg.click_count = (n : ℤ)) :
    ∀ (evs : List ClickerEvent) (s : ClickerState),
      s.clicksDone ≤ (n : ℤ) → (runEvents cfg s evs).clicksDone ≤ (n : ℤ) := by
  intro evs
  induction evs with
  | nil => intro s h; exact h
  | cons e tl ih =>
    intro s h
    show (runEvents cfg (applyEvent cfg s e) tl).clicksDone ≤ (n : ℤ)
    apply ih
    cases e with
    | tick now pos =>
      show (runStep cfg now pos s).clicksDone ≤ (n : ℤ)
      unfold runStep
      split_ifs with a b c d
      · exact h
      · exact h
      · exact h
      · exact h
      · show s.clicksDone + 1 ≤ (n : ℤ)
        have hlt : s.clicksDone < (n : ℤ) := by
          by_contra hge
          push_neg at hge
          apply d
          apply should_stop_of_count
          · rw [hcc]
            exact_mod_cast Nat.pos_iff_ne_zero.mp hn
          · rw [hcc]
            exact hge
        omega
    | toggleEv now =>
      show (clickerToggle now s).clicksDone ≤ (n : ℤ)
      unfold clickerToggle
      split_ifs
      · exact h
      · show (0 : ℤ) ≤ (n : ℤ)
        omega
    | stopEv => exact h

/-! ## Claims -/

/-- C1: saving an action list of dictionaries as the versioned envelope
`{"version": 1, "actions": actions}` and loading it back yields the same
ordered action list. -/
theorem spec_C1 (actions : List Json) (h : ∀ a ∈ actions, a.isObjB = true) :
    load_parse (save_payload actions) = Except.ok actions := by
  have hred : load_parse (save_payload actions)
      = Except.ok (actions.filter Json.isObjB) := rfl
  rw [hred, List.filter_eq_self.mpr h]

theorem spec_C1_witness :
    (∀ a ∈ [Json.obj [("kind", Json.str "key")]], a.isObjB = true) ∧
    load_parse (save_payload [Json.obj [("kind", Json.str "key")]]) =
      Except.ok [Json.obj [("kind", Json.str "key")]] :=
  ⟨by decide, spec_C1 [Json.obj [("kind", Json.str "key")]] (by decide)⟩

/-- C2: for non-negative interval `I` and jitter `J` and any jitter sample in
`[-J, J]`, the per-cycle delay computed by `_sleep_interval` (base plus
sample, clamped to a non-negative floor) lies in `[max(0, I-J), I+J]`. -/
theorem spec_C2 (I J s : ℚ) (hI : 0 ≤ I) (hJ : 0 ≤ J)
    (hs1 : -J ≤ s) (hs2 : s ≤ J) :
    max 0 (I - J) ≤ sleep_interval_delay I J s ∧
      sleep_interval_delay I J s ≤ I + J := by
  unfold sleep_interval_delay clamp_nonnegative
  split_ifs with hj hpos hpos
  · exact ⟨max_le (by linarith) (by linarith), by linarith⟩
  · push_neg at hpos
    exact ⟨max_le le_rfl (by linarith), by linarith⟩
  · have hJ0 : J = 0 := by
      rcases eq_or_lt_of_le hJ with h | h
      · exact h.symm
      · exact absurd ⟨ne_of_gt h, h⟩ hj
    exact ⟨max_le (by linarith) (by linarith), by linarith⟩
  · push_neg at hpos
    have hJ0 : J = 0 := by
      rcases eq_or_lt_of_le hJ with h | h
      · exact h.symm
      · exact absurd ⟨ne_of_gt h, h⟩ hj
    exact ⟨max_le le_rfl (by linarith), by linarith⟩

theorem spec_C2_witness :
    (0:ℚ) ≤ 1/10 ∧ (0:ℚ) ≤ 1/50 ∧ -(1/50 : ℚ) ≤ -1/100 ∧ (-1/100 : ℚ) ≤ 1/50 ∧
    (max 0 ((1:ℚ)/10 - 1/50) ≤ sleep_interval_delay (1/10) (1/50) (-1/100) ∧
      sleep_interval_delay (1/10) (1/50) (-1/100) ≤ 1/10 + 1/50) :=
  ⟨by norm_num, by norm_num, by norm_num, by norm_num,
   spec_C2 (1/10) (1/50) (-1/100) (by norm_num) (by norm_num) (by norm_num)
     (by norm_num)⟩

/-- C3: with click-count limit `N > 0` set (no duration limit, failsafe not
interfering), once toggled active the run loop performs exactly `N` clicks —
after `k ≤ N` cycles the counter reads `min N k` and the driver is still
active iff `k ≤ N`, so cycle `N + 1` auto-pauses it with the counter at `N` —
and under any interleaving of cycles, toggles and stops the counter never
exceeds `N`. -/
theorem spec_C3 (cfg : ClickConfig) (n : ℕ) (now0 : ℚ)
    (envs : List (ℚ × Option (ℤ × ℤ))) (evs : List ClickerEvent)
    (hcc : cfg.click_count = (n : ℤ)) (hn : 0 < n)
    (hdur : cfg.duration_sec = 0) (hfs : cfg.failsafe_corner_stop = false) :
    (runTicks cfg envs (clickerToggle now0 initialClickerState)).clicksDone
        = ((min n envs.length : ℕ) : ℤ) ∧
    ((runTicks cfg envs (clickerToggle now0 initialClickerState)).clicking
        = true ↔ envs.length ≤ n) ∧
    (runEvents cfg (clickerToggle now0 initialClickerState) evs).clicksDone
        ≤ (n : ℤ) := by
  have hs0 : clickerToggle now0 initialClickerState
      = { clicking := true, stopAll := false, startedAt := some now0,
          clicksDone := 0 } := rfl
  obtain ⟨ha, hb⟩ := runTicks_counts cfg n hn hcc hdur hfs envs
    (clickerToggle now0 initialClickerState) 0 (by rw [hs0]) (by rw [hs0])
    (by rw [hs0]; simp) (Nat.zero_le n)
  refine ⟨?_, ?_, ?_⟩
  · rw [ha]
    simp
  · rw [hb]
    simp
  · refine clicksDone_le_inv cfg n hn hcc evs _ ?_
    rw [hs0]
    show (0 : ℤ) ≤ (n : ℤ)
    omega

theorem spec_C3_witness :
    cfgTwo.click_count = ((2 : ℕ) : ℤ) ∧ 0 < 2 ∧ cfgTwo.duration_sec = 0 ∧
    cfgTwo.failsafe_corner_stop = false ∧
    ((runTicks cfgTwo [(0, none), (0, none), (0, none)]
        (clickerToggle 0 initialClickerState)).clicksDone
      = ((min 2 (List.length [((0 : ℚ), (none : Option (ℤ × ℤ))),
          (0, none), (0, none)]) : ℕ) : ℤ) ∧
     ((runTicks cfgTwo [(0, none), (0, none), (0, none)]
        (clickerToggle 0 initialClickerState)).clicking = true
       ↔ List.length [((0 : ℚ), (none : Option (ℤ × ℤ))), (0, none),
          (0, none)] ≤ 2) ∧
     (runEvents cfgTwo (clickerToggle 0 initialClickerState)
        [ClickerEvent.stopEv]).clicksDone ≤ ((2 : ℕ) : ℤ)) :=
  ⟨rfl, by decide, rfl, rfl,
   spec_C3 cfgTwo 2 0 [(0, none), (0, none), (0, none)] [ClickerEvent.stopEv]
     rfl (by decide) rfl rfl⟩

/-- C4: the player consults the stop signal before each delay, during each
nonzero wait (mid-sleep), and again before executing each action. For EVERY
point at which the signal can first read true — every consultation index `k`
of the run, modelled by the once-set event `fun m => decide (k ≤ m)` — the
run is exactly characterized: the executed actions are precisely those whose
whole check block lies strictly below `k` (so the action in flight at the
cancellation point, and every action after it, is not executed), and the
reported outcome is "stopped" exactly when `k` falls within the run's
consultations (`k ≥ totalChecks` means the signal never arrives during
playback: everything executes and "done" is reported). In addition, for an
arbitrary signal the executed actions are always a front segment of the
list, and a "stopped" report means a proper front segment. -/
theorem spec_C4 (stopF : ℕ → Bool) (actions : List Json) (k : ℕ)
    (hw : ∀ a ∈ actions, a.isObjB = true ∧
      ∃ q, a.getD "t" (Json.num 0) = Json.num q) :
    (∃ rest, (play_worker stopF actions).1 ++ rest = actions) ∧
    ((play_worker stopF actions).2 = PlayOutcome.stopped →
      (play_worker stopF actions).1 ≠ actions) ∧
    play_worker (fun m => decide (k ≤ m)) actions
      = (executedBefore k actions 0 0,
         if k < totalChecks actions 0 then PlayOutcome.stopped
         else PlayOutcome.done) := by
  refine ⟨playAux_executed stopF actions 0 0,
    playAux_stopped_ne stopF actions 0 0, ?_⟩
  have h := playAux_cut k actions 0 0 (Nat.zero_le k) hw
  simpa [play_worker] using h

theorem spec_C4_witness :
    (∀ a ∈ [sampleAction, sampleAction2], a.isObjB = true ∧
      ∃ q, a.getD "t" (Json.num 0) = Json.num q) ∧
    (∃ rest, (play_worker (fun m => decide (3 ≤ m))
        [sampleAction, sampleAction2]).1 ++ rest
      = [sampleAction, sampleAction2]) ∧
    ((play_worker (fun m => decide (3 ≤ m))
        [sampleAction, sampleAction2]).2 = PlayOutcome.stopped →
      (play_worker (fun m => decide (3 ≤ m))
        [sampleAction, sampleAction2]).1 ≠ [sampleAction, sampleAction2]) ∧
    play_worker (fun m => decide (3 ≤ m)) [sampleAction, sampleAction2]
      = (executedBefore 3 [sampleAction, sampleAction2] 0 0,
         if 3 < totalChecks [sampleAction, sampleAction2] 0 then
           PlayOutcome.stopped
         else PlayOutcome.done) ∧
    executedBefore 3 [sampleAction, sampleAction2] 0 0 = [sampleAction] ∧
    totalChecks [sampleAction, sampleAction2] 0 = 5 := by
  have hwW : ∀ a ∈ [sampleAction, sampleAction2], a.isObjB = true ∧
      ∃ q, a.getD "t" (Json.num 0) = Json.num q := by
    intro a ha
    rcases List.mem_cons.mp ha with h | h
    · subst h
      exact ⟨rfl, 0, rfl⟩
    · rw [List.mem_singleton] at h
      subst h
      exact ⟨rfl, 1, rfl⟩
  obtain ⟨w1, w2, w3⟩ :=
    spec_C4 (fun m => decide (3 ≤ m)) [sampleAction, sampleAction2] 3 hwW
  refine ⟨hwW, w1, w2, w3, ?_, ?_⟩
  · norm_num [executedBefore, actionChecks, sampleAction, sampleAction2,
      Json.getD, Json.isObjB, lookupKv, pyFloat,
      show ("kind" : String) ≠ "t" by decide]
  · norm_num [totalChecks, actionChecks, sampleAction, sampleAction2,
      Json.getD, Json.isObjB, lookupKv, pyFloat,
      show ("kind" : String) ≠ "t" by decide]

/-- C5 counterexample: a failing write in `save_macro` is NOT reported to the
user — `Path(path).write_text` sits outside any try/except (Macros.py lines
504-519), so the exception propagates out of the handler unreported. -/
theorem spec_C5_counterexample :
    (save_op [Json.obj []] (some "macro.json")
        (Except.error "disk full")).2 = IoOutcome.raised "disk full" ∧
    (save_op [Json.obj []] (some "macro.json")
        (Except.error "disk full")).2 ≠ IoOutcome.reported "disk full" :=
  ⟨rfl, by decide⟩

/-- C5 (amended): every load failure — I/O, decode, or format — is reported
to the user via a messagebox and leaves the in-memory action list unchanged;
a save never mutates the action list, but a failing write during save
propagates as an unhandled exception instead of being reported. -/
theorem spec_C5 (cur : List Json) (p e : String) (d : Json)
    (rd : Except String Json) (wr : Except String Unit) :
    (rd = Except.error e →
      load_op cur (some p) rd
        = (cur, IoOutcome.reported ("Could not load macro: " ++ e))) ∧
    (rd = Except.ok d → load_parse d = Except.error e →
      load_op cur (some p) rd
        = (cur, IoOutcome.reported ("Could not load macro: " ++ e))) ∧
    (save_op cur (some p) wr).1 = cur ∧
    (cur ≠ [] → wr = Except.error e →
      (save_op cur (some p) wr).2 = IoOutcome.raised e) := by
  refine ⟨?_, ?_, ?_, ?_⟩
  · intro h
    subst h
    rfl
  · intro h1 h2
    subst h1
    simp [load_op, h2]
  · unfold save_op
    split_ifs with h
    · rfl
    · cases wr <;> rfl
  · intro hne hw
    subst hw
    have hemp : cur.isEmpty = false := by simp [hne]
    simp [save_op, hemp]

theorem spec_C5_witness :
    load_op [Json.obj []] (some "m.json") (Except.error "boom")
      = ([Json.obj []], IoOutcome.reported ("Could not load macro: " ++ "boom")) ∧
    load_op [Json.obj []] (some "m.json") (Except.ok (Json.num 3))
      = ([Json.obj []], IoOutcome.reported ("Could not load macro: "
          ++ "Invalid macro format: actions must be a list.")) ∧
    (save_op [Json.obj []] (some "m.json") (Except.error "disk full")).1
      = [Json.obj []] ∧
    (save_op [Json.obj []] (some "m.json") (Except.error "disk full")).2
      = IoOutcome.raised "disk full" :=
  ⟨(spec_C5 [Json.obj []] "m.json" "boom" Json.null (Except.error "boom")
      (Except.error "disk full")).1 rfl,
   (spec_C5 [Json.obj []] "m.json"
      "Invalid macro format: actions must be a list." (Json.num 3)
      (Except.ok (Json.num 3)) (Except.error "disk full")).2.1 rfl rfl,
   (spec_C5 [Json.obj []] "m.json" "disk full" Json.null
      (Except.error "boom") (Except.error "disk full")).2.2.1,
   (spec_C5 [Json.obj []] "m.json" "disk full" Json.null
      (Except.error "boom") (Except.error "disk full")).2.2.2
     (by simp) rfl⟩

/-- C6 counterexample: the CLI startup path does NOT reject identical toggle
and quit hotkeys — `run_cli` performs no validation, and its hotkey dict
silently collapses to a single entry bound to the quit callback (the toggle
binding is lost). -/
theorem spec_C6_counterexample :
    run_cli_hotkeys { toggle_key := "<f8>", quit_key := "<f8>" }
      = [("<f8>", CliAction.quitAction)] ∧
    (run_cli_hotkeys { toggle_key := "<f8>", quit_key := "<f8>" }).length
      = 1 :=
  ⟨rfl, rfl⟩

/-- C6 (amended): identical toggle and quit hotkey strings are rejected at
configuration-apply time in the GUI path (`_read_config` never builds a
config, so `on_apply` returns without mutating any running state); the CLI
startup path performs no such validation — it proceeds, with the duplicate
key collapsing the hotkey dict to the quit binding alone. -/
theorem spec_C6 (ip jp dp : Option ℚ) (cp xp yp : Option ℤ) (button : String)
    (dbl fixed fs tm : Bool) (tRaw qRaw : String) (vt vq : Bool)
    (cfg : ClickConfig) (heq : tRaw.trim = qRaw.trim)
    (hcfg : cfg.toggle_key = cfg.quit_key) :
    (read_config ip jp dp cp xp yp button dbl fixed fs tm tRaw qRaw
        vt vq).isBuilt = false ∧
    run_cli_hotkeys cfg = [(cfg.quit_key, CliAction.quitAction)] := by
  constructor
  · unfold read_config
    split
    · split_ifs with h1 h2 h3 <;> rfl
    · rfl
  · simp [run_cli_hotkeys, dictInsert, hcfg]

theorem spec_C6_witness :
    ("<f8>" : String).trim = ("<f8>" : String).trim ∧
    ({ toggle_key := "<f8>", quit_key := "<f8>" } : ClickConfig).toggle_key
      = ({ toggle_key := "<f8>", quit_key := "<f8>" } : ClickConfig).quit_key ∧
    (read_config (some 1) (some 0) (some 0) (some 0) (some 0) (some 0)
        "left" false false true false "<f8>" "<f8>" true true).isBuilt
      = false ∧
    run_cli_hotkeys { toggle_key := "<f8>", quit_key := "<f8>" }
      = [("<f8>", CliAction.quitAction)] :=
  ⟨rfl, rfl,
   (spec_C6 (some 1) (some 0) (some 0) (some 0) (some 0) (some 0) "left"
     false false true false "<f8>" "<f8>" true true
     { toggle_key := "<f8>", quit_key := "<f8>" } rfl rfl).1,
   (spec_C6 (some 1) (some 0) (some 0) (some 0) (some 0) (some 0) "left"
     false false true false "<f8>" "<f8>" true true
     { toggle_key := "<f8>", quit_key := "<f8>" } rfl rfl).2⟩

/-- C7: the configuration merge applies a value only to recognized
`ClickConfig` field names — the merged dict always has exactly the recognized
keys — and a merge whose overrides contain only unrecognized keys returns the
base configuration unchanged (and raises nothing: `merge_config_dict` is
total). -/
theorem spec_C7 (cfg : ClickConfig) (ovs ovs2 : List (String × Json))
    (h2 : ∀ kv ∈ ovs2, kv.1 ∉ configFieldNames) :
    (merge_config_dict (asdict cfg) ovs).map Prod.fst = configFieldNames ∧
    merge_config_dict (asdict cfg) ovs2 = asdict cfg :=
  ⟨(merge_config_dict_keys ovs (asdict cfg)).trans rfl,
   merge_unrecognized cfg ovs2 h2⟩

theorem spec_C7_witness :
    (∀ kv ∈ [(("foo" : String), Json.num 1)], kv.1 ∉ configFieldNames) ∧
    (merge_config_dict (asdict DEFAULT_CONFIG)
        [("interval_sec", Json.num 2)]).map Prod.fst = configFieldNames ∧
    merge_config_dict (asdict DEFAULT_CONFIG) [("foo", Json.num 1)]
      = asdict DEFAULT_CONFIG :=
  ⟨by decide,
   (spec_C7 DEFAULT_CONFIG [("interval_sec", Json.num 2)]
     [("foo", Json.num 1)] (by decide)).1,
   (spec_C7 DEFAULT_CONFIG [("interval_sec", Json.num 2)]
     [("foo", Json.num 1)] (by decide)).2⟩

/-- C8: the failsafe check returns false when the option is disabled, returns
false when reading the pointer position fails (fail-open), and otherwise
returns true exactly when both pointer coordinates are ≤ 0. -/
theorem spec_C8 (cfg : ClickConfig) (x y : ℤ) :
    (cfg.failsafe_corner_stop = false →
      failsafe_triggered cfg (some (x, y)) = false) ∧
    failsafe_triggered cfg none = false ∧
    (cfg.failsafe_corner_stop = true →
      (failsafe_triggered cfg (some (x, y)) = true ↔ x ≤ 0 ∧ y ≤ 0)) := by
  refine ⟨fun h => by simp [failsafe_triggered, h], ?_,
    fun h => by simp [failsafe_triggered, h]⟩
  unfold failsafe_triggered
  split_ifs <;> rfl

theorem spec_C8_witness :
    failsafe_triggered { failsafe_corner_stop := false } (some (5, 5)) = false ∧
    failsafe_triggered DEFAULT_CONFIG none = false ∧
    (failsafe_triggered DEFAULT_CONFIG (some (0, -3)) = true ↔
      (0:ℤ) ≤ 0 ∧ (-3:ℤ) ≤ 0) :=
  ⟨(spec_C8 { failsafe_corner_stop := false } 5 5).1 rfl,
   (spec_C8 DEFAULT_CONFIG 0 (-3)).2.1,
   (spec_C8 DEFAULT_CONFIG 0 (-3)).2.2 rfl⟩

/-- C9: loading a well-formed macro file (enveloped or bare array) whose
actions array contains non-dict elements succeeds with no error, dropping
exactly the non-dict elements and keeping the dict elements in order (the
result is the order-preserving filter of the array). -/
theorem spec_C9 (xs : List Json) :
    load_parse (Json.obj [("version", Json.num 1), ("actions", Json.arr xs)])
      = Except.ok (xs.filter Json.isObjB) ∧
    load_parse (Json.arr xs) = Except.ok (xs.filter Json.isObjB) ∧
    (xs.filter Json.isObjB).Sublist xs :=
  ⟨rfl, rfl, List.filter_sublist xs⟩

/-- C10: a `mouse_click` action whose button name is unknown does not fail:
`_button_from_name` falls back to the left button, and the click replays as a
left-button press or release. -/
theorem spec_C10 (name : String) (pressed : Bool)
    (h1 : name ≠ "left") (h2 : name ≠ "right") (h3 : name ≠ "middle") :
    button_from_name name = MouseButton.left ∧
    execute_action (Json.obj [("kind", Json.str "mouse_click"),
        ("x", Json.num 0), ("y", Json.num 0), ("button", Json.str name),
        ("pressed", Json.bool pressed), ("t", Json.num 0)]) =
      (if pressed then [Effect.press MouseButton.left]
       else [Effect.release MouseButton.left]) := by
  have hbtn : button_from_name name = MouseButton.left := by
    unfold button_from_name
    rw [if_neg h1, if_neg h2, if_neg h3]
  refine ⟨hbtn, ?_⟩
  have hred : execute_action (Json.obj [("kind", Json.str "mouse_click"),
      ("x", Json.num 0), ("y", Json.num 0), ("button", Json.str name),
      ("pressed", Json.bool pressed), ("t", Json.num 0)]) =
      (if pressed then [Effect.press (button_from_name name)]
       else [Effect.release (button_from_name name)]) := rfl
  rw [hred, hbtn]

theorem spec_C10_witness :
    ("button9" ≠ "left") ∧ ("button9" ≠ "right") ∧ ("button9" ≠ "middle") ∧
    button_from_name "button9" = MouseButton.left ∧
    execute_action (Json.obj [("kind", Json.str "mouse_click"),
        ("x", Json.num 0), ("y", Json.num 0), ("button", Json.str "button9"),
        ("pressed", Json.bool true), ("t", Json.num 0)]) =
      (if true then [Effect.press MouseButton.left]
       else [Effect.release MouseButton.left]) :=
  ⟨by decide, by decide, by decide,
   (spec_C10 "button9" true (by decide) (by decide) (by decide)).1,
   (spec_C10 "button9" true (by decide) (by decide) (by decide)).2⟩

end MorphSpec
